import Mathlib

/-!
Formal model of a Minecraft-server supervisor: the `server` package (process
lifecycle, output classification, event log, player registry) and the `backup`
package (archive creation, retention, listing).

Pure Go functions are translated into executable Lean functions.  The
concurrent loops are modelled by making the values they read from shared state
(current status, child-process exit error, pipe attachment, timer outcomes)
explicit parameters, and the mutations and writes they perform explicit
results.  `time.Time` values are modelled as natural-number timestamps;
OS-sampled resource fields (CPU percent, RSS, I/O counters) and the real clock
are outside the model.  Machine integers are modelled as `Nat` with explicit
clamping / reduction modulo `2 ^ 64` where Go's `uint64` / `int` semantics
matter.
-/

namespace Server

/-- `EventType` enumeration of the server package. -/
inductive EventType where
  | EventInfo
  | EventWarning
  | EventError
  | EventPlayerJoin
  | EventPlayerLeave
  | EventChat
  | EventCommand
  | EventBackup
  | EventRestart
deriving DecidableEq

/-- `ServerStatus` enumeration of the server package. -/
inductive ServerStatus where
  | StatusStopped
  | StatusStarting
  | StatusRunning
  | StatusStopping
  | StatusCrashed
  | StatusRestarting
  | StatusDownloading
  | StatusInstalling
deriving DecidableEq

/-- `Player` record; `JoinedAt` is a `Nat` timestamp. -/
structure Player where
  Name : String
  UUID : String
  JoinedAt : Nat
  IPAddress : String
deriving DecidableEq

/-- `ServerEvent` record; `Time` is a `Nat` timestamp and `Type'` renders the
Go field `Type` (a reserved word in Lean). -/
structure ServerEvent where
  Time : Nat
  Type' : EventType
  Message : String
deriving DecidableEq

/-- `ServerStats`: the shared aggregate guarded by `statsMutex`.  The `TPS`
field (a `float64` in Go) is modelled as the raw matched text of the last
performance-metric report, since no reasoning here depends on float values;
CPU/memory/network fields sampled from the OS are omitted from the model. -/
structure ServerStats where
  Status : ServerStatus
  StartTime : Nat
  Uptime : Nat
  Restarts : Nat
  TPS : String
  PlayerCount : Nat
  MaxPlayers : Nat
  Players : List Player
  RecentEvents : List ServerEvent
deriving DecidableEq

/-- Initial stats installed by the server constructor `New`: status Stopped,
no players, no events, `MaxPlayers = 20`, default TPS `20.0`. -/
def New : ServerStats :=
  { Status := .StatusStopped
    StartTime := 0
    Uptime := 0
    Restarts := 0
    TPS := "20.0"
    PlayerCount := 0
    MaxPlayers := 20
    Players := []
    RecentEvents := [] }

/-- `updateStatus`: set the status field under the lock. -/
def updateStatus (s : ServerStats) (status : ServerStatus) : ServerStats :=
  { s with Status := status }

/-- `addEvent`: append a timestamped event to `RecentEvents`, trimming the
oldest entry when the length exceeds 100.  The non-blocking send on the
bounded event channel performed by the Go code is not part of the aggregate
state and is not modelled here. -/
def addEvent (s : ServerStats) (now : Nat) (eventType : EventType)
    (message : String) : ServerStats :=
  let evs := s.RecentEvents ++ [{ Time := now, Type' := eventType, Message := message }]
  { s with RecentEvents := if evs.length > 100 then evs.drop 1 else evs }

/-- `addPlayer`: no-op when a player of that name is already registered,
otherwise append a fresh entry and recompute `PlayerCount`. -/
def addPlayer (s : ServerStats) (now : Nat) (name : String) : ServerStats :=
  if s.Players.any (fun p => p.Name = name) then s
  else
    let ps := s.Players ++ [{ Name := name, UUID := "", JoinedAt := now, IPAddress := "" }]
    { s with Players := ps, PlayerCount := ps.length }

/-- Remove the first player with the given name (the Go loop breaks after the
first hit). -/
def removeFirstPlayer (name : String) : List Player → List Player
  | [] => []
  | p :: ps => if p.Name = name then ps else p :: removeFirstPlayer name ps

/-- `removePlayer`: drop the first entry of that name and recompute
`PlayerCount`. -/
def removePlayer (s : ServerStats) (name : String) : ServerStats :=
  let ps := removeFirstPlayer name s.Players
  { s with Players := ps, PlayerCount := ps.length }

/-- Update the UUID of the first player with the given name (the Go loop
returns at the first hit; absent name is a no-op). -/
def setUUIDFirst (name uuid : String) : List Player → List Player
  | [] => []
  | p :: ps =>
    if p.Name = name then { p with UUID := uuid } :: ps
    else p :: setUUIDFirst name uuid ps

/-- `updatePlayerUUID`. -/
def updatePlayerUUID (s : ServerStats) (name uuid : String) : ServerStats :=
  { s with Players := setUUIDFirst name uuid s.Players }

/-- Update the IP address of the first player with the given name. -/
def setIPFirst (name ip : String) : List Player → List Player
  | [] => []
  | p :: ps =>
    if p.Name = name then { p with IPAddress := ip } :: ps
    else p :: setIPFirst name ip ps

/-- `updatePlayerIP`. -/
def updatePlayerIP (s : ServerStats) (name ip : String) : ServerStats :=
  { s with Players := setIPFirst name ip s.Players }

/-- `GetStats`: returns a copy of the aggregate (copies are identities in this
pure model); while the status is Running the copy's `Uptime` is recomputed as
`now - StartTime`. -/
def GetStats (s : ServerStats) (now : Nat) : ServerStats :=
  if s.Status = .StatusRunning then { s with Uptime := now - s.StartTime } else s

/-- Capacity of the raw output channel (`make(chan string, 1000)`). -/
def outputChanCap : Nat := 1000

/-- The non-blocking send of `readOutput`: `select` with a `default` branch.
When the channel already holds `outputChanCap` lines, the new line is skipped
(dropped); the function is total, so the producer never blocks. -/
def trySend (chan : List String) (line : String) : List String :=
  if chan.length < outputChanCap then chan ++ [line] else chan

/-- `readOutput`, restricted to its channel effect: the contents of the output
channel after the reader loop has pushed every scanned line while no consumer
drained the channel.  (Each line is additionally passed to `parseOutput`,
independently of whether its channel send succeeded.) -/
def readOutput (lines : List String) : List String :=
  lines.foldl trySend []

/-- Outcome of one run of the `monitorProcess` goroutine, which blocks on
`cmd.Wait()` and then reacts to the exit. -/
structure MonitorOutcome where
  /-- The status the monitor stores after the exit (before any restart). -/
  finalStatus : ServerStatus
  /-- Events appended by the monitor, in order. -/
  events : List (EventType × String)
  /-- Seconds slept before the auto-restart guard is evaluated. -/
  sleepSeconds : Nat
  /-- Whether `go s.Restart()` is invoked. -/
  restartInvoked : Bool
deriving DecidableEq

/-- `monitorProcess`: `statusAtExit` is the status read right after
`cmd.Wait()` returns, `exitErr` the error returned by `Wait` (`none` for a
clean, zero-exit-code termination), and `statusAfterDelay` the status read
after the 5 second sleep of the auto-restart path.  The `s.cmd == nil` early
return cannot fire in a monitor spawned by `Start` and is omitted. -/
def monitorProcess (statusAtExit : ServerStatus) (exitErr : Option String)
    (autoRestart : Bool) (statusAfterDelay : ServerStatus) : MonitorOutcome :=
  if statusAtExit = .StatusStopping then
    { finalStatus := .StatusStopped, events := [], sleepSeconds := 0, restartInvoked := false }
  else
    match exitErr with
    | some e =>
      { finalStatus := .StatusCrashed
        events := [(.EventError, "Server crashed: " ++ e)]
          ++ (if autoRestart then [(.EventRestart, "Auto-restarting in 5 seconds...")] else [])
        sleepSeconds := if autoRestart then 5 else 0
        restartInvoked := autoRestart && decide (statusAfterDelay = .StatusCrashed) }
    | none =>
      { finalStatus := .StatusStopped, events := [], sleepSeconds := 0, restartInvoked := false }

/-- Outcome of one `SendCommand` call. -/
structure SendOutcome where
  /-- Lines written to the child's stdin (one on success, none otherwise). -/
  written : List String
  /-- Command-category event appended, if any. -/
  event : Option (EventType × String)
  /-- Error returned to the caller. -/
  error : Option String
deriving DecidableEq

/-- `SendCommand`: fails with "server not running" when no stdin pipe is
attached; otherwise writes one line (`writeOk` models whether the pipe write
succeeds) and, on success, appends a Command event unless the command is the
internally issued metrics poll `forge tps`. -/
def SendCommand (stdinAttached writeOk : Bool) (command : String) : SendOutcome :=
  if stdinAttached = false then
    { written := [], event := none, error := some "server not running" }
  else if writeOk = false then
    { written := [], event := none, error := some "failed to send command" }
  else
    { written := [command]
      event :=
        if command = "forge tps" then none
        else some (.EventCommand, "Executed: " ++ command)
      error := none }

/-- Outcome of one `Stop` call. -/
structure StopOutcome where
  /-- Statuses stored by `Stop`, in order (empty on the no-op path). -/
  statusTrace : List ServerStatus
  /-- The status when `Stop` returns. -/
  finalStatus : ServerStatus
  /-- Console commands actually written to the child's stdin, in order. -/
  commandsWritten : List String
  /-- Seconds waited between `save-all` and `stop` (2 on the active path). -/
  settleSeconds : Nat
  /-- Bound in seconds of the wait for process exit (30 on the active path). -/
  graceSeconds : Nat
  /-- Whether `Process.Kill` was invoked. -/
  killed : Bool
  /-- Error returned to the caller. -/
  error : Option String
  /-- Events appended, in order. -/
  events : List (EventType × String)
deriving DecidableEq

/-- `Stop`: no-op returning nil when the status is neither Running nor
Starting.  Otherwise: store Stopping, send `save-all` (warning on failure),
wait 2s, send `stop` (warning plus kill on failure), race a 30 second wait
for process exit (`exitsWithinGrace`) against a hard kill, store Stopped,
return nil. -/
def Stop (status : ServerStatus) (stdinAttached writeOk exitsWithinGrace : Bool) :
    StopOutcome :=
  if status ≠ ServerStatus.StatusRunning ∧ status ≠ ServerStatus.StatusStarting then
    { statusTrace := [], finalStatus := status, commandsWritten := []
      settleSeconds := 0, graceSeconds := 0, killed := false, error := none, events := [] }
  else
    let r1 := SendCommand stdinAttached writeOk "save-all"
    let ev1 := [((EventType.EventInfo), "Stopping server gracefully...")]
      ++ r1.event.toList
      ++ (if r1.error.isSome then [((EventType.EventWarning), "Could not send save-all command")] else [])
    let r2 := SendCommand stdinAttached writeOk "stop"
    let ev2 := r2.event.toList
      ++ (if r2.error.isSome then
            [((EventType.EventWarning), "Could not send stop command, forcing shutdown")]
          else [])
    let ev3 :=
      if exitsWithinGrace then [((EventType.EventInfo), "Server stopped gracefully")]
      else [((EventType.EventWarning), "Server did not stop in time, forcing kill")]
    { statusTrace := [.StatusStopping, .StatusStopped]
      finalStatus := .StatusStopped
      commandsWritten := r1.written ++ r2.written
      settleSeconds := 2
      graceSeconds := 30
      killed := r2.error.isSome || !exitsWithinGrace
      error := none
      events := ev1 ++ ev2 ++ ev3 }

/-- `Restart`: appends a Restart event, stores Restarting, increments the
cumulative restart counter, then calls `Stop` and (after a 2s delay) `Start`.
The outcomes of the inner `Stop` and `Start` calls are abstracted as
`stopResult` / `startResult`; the returned state is the aggregate as mutated
by `Restart`'s own statements. -/
def Restart (st : ServerStats) (now : Nat) (stopResult startResult : Option String) :
    ServerStats × Option String :=
  let st1 := addEvent st now .EventRestart "Restarting server..."
  let st2 := updateStatus st1 .StatusRestarting
  let st3 := { st2 with Restarts := st2.Restarts + 1 }
  match stopResult with
  | some e => (st3, some ("failed to stop server for restart: " ++ e))
  | none => (st3, startResult)


/-- Word character class of the regex `\\w`: ASCII letters, digits and
underscore. -/
def isWordChar (c : Char) : Bool :=
  c.isAlphanum || c = '_'

/-- Match a literal at the head of the input; returns the remainder on
success. -/
def litMatch : List Char → List Char → Option (List Char)
  | [], s => some s
  | _ :: _, [] => none
  | p :: ps, c :: cs => if p = c then litMatch ps cs else none

/-- Scan left to right for an occurrence of `lit` whose continuation `k`
succeeds on the remainder: embeds the leftmost-match semantics of a regex of
shape `lit`-then-rest (with any lazy gap before `lit`), retrying at the next
occurrence when the rest of the pattern fails. -/
def scanFor (lit : List Char) (k : List Char → Option α) : List Char → Option α
  | [] =>
    match litMatch lit [] with
    | some rest => k rest
    | none => none
  | c :: cs =>
    match litMatch lit (c :: cs) with
    | some rest =>
      match k rest with
      | some v => some v
      | none => scanFor lit k cs
    | none => scanFor lit k cs

/-- `strings.Contains`. -/
def containsList (pat : List Char) : List Char → Bool
  | [] => (litMatch pat []).isSome
  | c :: cs => (litMatch pat (c :: cs)).isSome || containsList pat cs

/-- `doneRegex`: `Done \\([\\d.]+s\\)! For help, type "help"`. -/
def matchDone (line : List Char) : Bool :=
  (scanFor "Done (".data
    (fun r =>
      let t := r.takeWhile (fun c => c.isDigit || c = '.')
      if t.isEmpty then none
      else
        (litMatch "s)! For help, type \"help\"".data
          (r.dropWhile (fun c => c.isDigit || c = '.'))).map (fun _ => ()))
    line).isSome

/-- Shared shape of `playerJoinRegex` / `playerLeaveRegex`:
`\\[Server thread/INFO\\].*?: (\\w+)` followed by a fixed tail; returns the
captured player name. -/
def matchInfoPlayer (tail : List Char) (line : List Char) : Option String :=
  scanFor "[Server thread/INFO]".data
    (fun r1 =>
      scanFor ": ".data
        (fun r2 =>
          let w := r2.takeWhile isWordChar
          if w.isEmpty then none
          else (litMatch tail (r2.dropWhile isWordChar)).map (fun _ => String.mk w))
        r1)
    line

/-- `playerJoinRegex`. -/
def matchJoin (line : List Char) : Option String :=
  matchInfoPlayer " joined the game".data line

/-- `playerLeaveRegex`. -/
def matchLeave (line : List Char) : Option String :=
  matchInfoPlayer " left the game".data line

/-- `playerListRegex`: `There are (\\d+) of a max of (\\d+) players online`;
returns the two captured digit strings. -/
def matchPlayerList (line : List Char) : Option (List Char × List Char) :=
  scanFor "There are ".data
    (fun r1 =>
      let d1 := r1.takeWhile Char.isDigit
      if d1.isEmpty then none
      else
        match litMatch " of a max of ".data (r1.dropWhile Char.isDigit) with
        | none => none
        | some r2 =>
          let d2 := r2.takeWhile Char.isDigit
          if d2.isEmpty then none
          else
            match litMatch " players online".data (r2.dropWhile Char.isDigit) with
            | none => none
            | some _ => some (d1, d2))
    line

/-- `tpsRegex`: `Mean TPS: ([\\d.]+)`; returns the captured text (the model
does not interpret the float). -/
def matchTps (line : List Char) : Option String :=
  scanFor "Mean TPS: ".data
    (fun r =>
      let t := r.takeWhile (fun c => c.isDigit || c = '.')
      if t.isEmpty then none else some (String.mk t))
    line

/-- `chatRegex`: `<(\\w+)> (.+)`. -/
def matchChat (line : List Char) : Option (String × String) :=
  scanFor "<".data
    (fun r =>
      let w := r.takeWhile isWordChar
      if w.isEmpty then none
      else
        match litMatch "> ".data (r.dropWhile isWordChar) with
        | none => none
        | some rest =>
          if rest.isEmpty then none else some (String.mk w, String.mk rest))
    line

/-- Tail of `ipRegex` after the captured name:
`\\[/(\\d+\\.\\d+\\.\\d+\\.\\d+):\\d+\\] logged in` without the leading bracket;
returns the captured dotted-quad address. -/
def ipAddrTail (r : List Char) : Option String :=
  let a := r.takeWhile Char.isDigit
  if a.isEmpty then none else
  match litMatch ".".data (r.dropWhile Char.isDigit) with
  | none => none
  | some r1 =>
    let b := r1.takeWhile Char.isDigit
    if b.isEmpty then none else
    match litMatch ".".data (r1.dropWhile Char.isDigit) with
    | none => none
    | some r2 =>
      let c := r2.takeWhile Char.isDigit
      if c.isEmpty then none else
      match litMatch ".".data (r2.dropWhile Char.isDigit) with
      | none => none
      | some r3 =>
        let d := r3.takeWhile Char.isDigit
        if d.isEmpty then none else
        match litMatch ":".data (r3.dropWhile Char.isDigit) with
        | none => none
        | some r4 =>
          let e := r4.takeWhile Char.isDigit
          if e.isEmpty then none else
          match litMatch "] logged in".data (r4.dropWhile Char.isDigit) with
          | none => none
          | some _ =>
            some (String.mk (a ++ ".".data ++ b ++ ".".data ++ c ++ ".".data ++ d))

/-- `ipRegex`: `(\\w+)\\[/...` tried at every start position, leftmost
first. -/
def matchIp : List Char → Option (String × String)
  | [] => none
  | c :: cs =>
    match
      (let w := (c :: cs).takeWhile isWordChar
       if w.isEmpty then none
       else
         match litMatch "[/".data ((c :: cs).dropWhile isWordChar) with
         | none => none
         | some r => (ipAddrTail r).map (fun ip => (String.mk w, ip))) with
    | some v => some v
    | none => matchIp cs

/-- Character class `[a-f0-9-]` of `uuidRegex`. -/
def isUuidChar (c : Char) : Bool :=
  c.isDigit || ('a' ≤ c && c ≤ 'f') || c = '-'

/-- `uuidRegex`: `UUID of player (\\w+) is ([a-f0-9-]+)`. -/
def matchUuid (line : List Char) : Option (String × String) :=
  scanFor "UUID of player ".data
    (fun r =>
      let w := r.takeWhile isWordChar
      if w.isEmpty then none
      else
        match litMatch " is ".data (r.dropWhile isWordChar) with
        | none => none
        | some r2 =>
          let u := r2.takeWhile isUuidChar
          if u.isEmpty then none else some (String.mk w, String.mk u))
    line

/-- Numeric value of a digit string. -/
def digitsToNat (l : List Char) : Nat :=
  l.foldl (fun a c => a * 10 + (c.toNat - 48)) 0

/-- Go `strconv.Atoi` applied to a nonempty all-digit regex capture, with the
error discarded as at the call sites: the numeric value, clamped to the
maximum signed 64-bit integer when the digits exceed the range (Go returns
`maxInt64` together with the discarded range error). -/
def atoiDigits (l : List Char) : Nat :=
  min (digitsToNat l) (2 ^ 63 - 1)

/-- `parseOutput`: classify one output line against the fixed priority order
of patterns -- ready marker, join, leave, population report, TPS report,
chat, login address, login UUID, metric-noise suppression, warning marker,
error marker -- first match wins, and apply its state effect. -/
def parseOutput (s : ServerStats) (now : Nat) (line : String) : ServerStats :=
  if matchDone line.data then
    addEvent (updateStatus s .StatusRunning) now .EventInfo "Server started successfully!"
  else
    match matchJoin line.data with
    | some name =>
      addEvent (addPlayer s now name) now .EventPlayerJoin (name ++ " joined the game")
    | none =>
    match matchLeave line.data with
    | some name =>
      addEvent (removePlayer s name) now .EventPlayerLeave (name ++ " left the game")
    | none =>
    match matchPlayerList line.data with
    | some (d1, d2) => { s with PlayerCount := atoiDigits d1, MaxPlayers := atoiDigits d2 }
    | none =>
    match matchTps line.data with
    | some t => { s with TPS := t }
    | none =>
    match matchChat line.data with
    | some (who, msg) => addEvent s now .EventChat ("<" ++ who ++ "> " ++ msg)
    | none =>
    match matchIp line.data with
    | some (name, ip) => updatePlayerIP s name ip
    | none =>
    match matchUuid line.data with
    | some (name, uuid) => updatePlayerUUID s name uuid
    | none =>
    if containsList "Mean TPS:".data line.data ||
        containsList "Mean tick time:".data line.data then s
    else if containsList "[WARN]".data line.data ||
        containsList "WARN]".data line.data then
      addEvent s now .EventWarning line
    else if containsList "[ERROR]".data line.data ||
        containsList "ERROR]".data line.data then
      addEvent s now .EventError line
    else s

/-- A registry holding exactly one player, "Steve", for concrete
scenarios. -/
def steveState : ServerStats := addPlayer New 5 "Steve"


/-- Go `unicode.IsSpace` restricted to ASCII whitespace (the configured
memory strings are ASCII). -/
def isSpaceGo (c : Char) : Bool :=
  c = ' ' || c = '\t' || c = '\n' || c = '\x0b' || c = '\x0c' || c = '\r'

/-- `strings.TrimSpace`. -/
def goTrimSpace (s : List Char) : List Char :=
  ((s.dropWhile isSpaceGo).reverse.dropWhile isSpaceGo).reverse

/-- `strings.ToUpper` on one ASCII character. -/
def upChar (c : Char) : Char :=
  if 'a' ≤ c && c ≤ 'z' then Char.ofNat (c.toNat - 32) else c

/-- `strings.ToUpper`. -/
def goToUpper (s : List Char) : List Char :=
  s.map upChar

/-- Go `strings.HasPrefix` as a test on character lists. -/
def startsWithList (pre s : List Char) : Bool :=
  (litMatch pre s).isSome

/-- Go `strings.HasSuffix` as a test on character lists. -/
def endsWithList (suf s : List Char) : Bool :=
  (litMatch suf.reverse s.reverse).isSome

/-- Maximum value of Go `uint64`. -/
def maxUint64 : Nat := 2 ^ 64 - 1

/-- Go `strconv.ParseUint(s, 10, 64)` with the returned error discarded:
0 for an empty or syntactically invalid (non-digit) string; the numeric
value for in-range digit strings; `maxUint64` -- the value Go returns
alongside the discarded range error -- for digit strings beyond the 64-bit
range. -/
def goParseUint64 (s : List Char) : Nat :=
  if s.isEmpty then 0
  else if s.all Char.isDigit then min (digitsToNat s) maxUint64
  else 0

/-- Decimal digit character. -/
def natDigitChar (n : Nat) : Char := Char.ofNat (48 + n)

/-- Fuel-driven decimal rendering (structural recursion so that the kernel
can evaluate it; the fuel is irrelevant once it exceeds the number). -/
def natDecimalAux : Nat → Nat → List Char
  | 0, _ => []
  | fuel + 1, n =>
    if n < 10 then [natDigitChar n]
    else natDecimalAux fuel (n / 10) ++ [natDigitChar (n % 10)]

/-- Decimal rendering of a natural number, as Go formatting produces it. -/
def natDecimalList (n : Nat) : List Char :=
  natDecimalAux (n + 1) n

/-- Suffix dispatch of `parseMemoryString`: strip a trailing G, M or K and
select the corresponding multiplier. -/
def memSuffixSplit (m : List Char) : List Char × Nat :=
  if endsWithList ['G'] m then (m.dropLast, 1024 * 1024 * 1024)
  else if endsWithList ['M'] m then (m.dropLast, 1024 * 1024)
  else if endsWithList ['K'] m then (m.dropLast, 1024)
  else (m, 1)

/-- `parseMemoryString`: trim whitespace, uppercase, strip an optional G/M/K
suffix selecting the multiplier, parse the remainder as `uint64` and
multiply; the `uint64` product wraps modulo `2 ^ 64`. -/
def parseMemoryString (mem : String) : Nat :=
  goParseUint64 (memSuffixSplit (goToUpper (goTrimSpace mem.data))).1 *
    (memSuffixSplit (goToUpper (goTrimSpace mem.data))).2 % 2 ^ 64

/-- The numeric part `parseMemoryString` hands to the integer parser. -/
def memNumericPart (mem : String) : List Char :=
  (memSuffixSplit (goToUpper (goTrimSpace mem.data))).1

end Server

namespace Backup

open Server

/-- Entry of the backup directory: file name, directory flag, modification
time.  `os.ReadDir` order is modelled as creation order; the retention logic
sorts by time itself, so enumeration order never matters below. -/
structure DirEntry where
  name : List Char
  isDir : Bool
  modTime : Nat
deriving DecidableEq

/-- `BackupInfo`; `Path` (always `backupDir/Name`) and `Size` are filesystem
artifacts not used by the retention logic and are omitted. -/
structure BackupInfo where
  Name : List Char
  CreatedAt : Nat
deriving DecidableEq

/-- Archive name `backup_<timestamp>.zip`.  The Go timestamp format
`2006-01-02_15-04-05` is rendered as the decimal seconds count: like the
real format it is injective on distinct second-resolution timestamps (the
spec itself notes the same-second collision; the claims assume distinct
timestamps). -/
def backupName (t : Nat) : List Char :=
  "backup_".data ++ (natDecimalList t ++ ".zip".data)

/-- `ListBackups`: non-directory entries named `backup_*.zip`, with
`CreatedAt` from the modification time; a missing backup directory yields
the empty list, modelled by the empty entry list. -/
def ListBackups (dir : List DirEntry) : List BackupInfo :=
  (dir.filter (fun e =>
      !e.isDir && startsWithList "backup_".data e.name &&
        endsWithList ".zip".data e.name)).map
    (fun e => { Name := e.name, CreatedAt := e.modTime })

/-- Insertion step of the newest-first sort (`sort.Slice` with comparator
`CreatedAt.After`, strictly-greater creation time first). -/
def insertByNewest (b : BackupInfo) : List BackupInfo → List BackupInfo
  | [] => [b]
  | c :: cs =>
    if c.CreatedAt < b.CreatedAt then b :: c :: cs else c :: insertByNewest b cs

/-- Sort newest-first by creation time. -/
def sortByNewest (bs : List BackupInfo) : List BackupInfo :=
  bs.foldr insertByNewest []

/-- `cleanupOldBackups`: nothing to delete at or below the cap; otherwise
sort the listing newest first and remove (by name) every archive beyond
`maxBackups`.  Individual removal failures only log; the success path is
modelled. -/
def cleanupOldBackups (maxBackups : Nat) (dir : List DirEntry) : List DirEntry :=
  if (ListBackups dir).length ≤ maxBackups then dir
  else
    dir.filter (fun e =>
      !(((sortByNewest (ListBackups dir)).drop maxBackups).any
        (fun b => b.Name = e.name)))

/-- `CreateBackup`, success path: the world directories exist and the
archive write succeeds, so the backup directory gains the timestamped
archive (modification time = creation time `t`) and retention cleanup runs.
World-directory enumeration and zip contents concern the server directory,
not the backup catalog modelled here. -/
def CreateBackup (maxBackups t : Nat) (dir : List DirEntry) : List DirEntry :=
  cleanupOldBackups maxBackups
    (dir ++ [{ name := backupName t, isDir := false, modTime := t }])

end Backup

namespace Server

/-- Accumulator fold of `trySend`: the channel keeps the earliest lines up to
its capacity. -/
theorem foldl_trySend (lines : List String) :
    ∀ q : List String,
      lines.foldl trySend q = q ++ lines.take (outputChanCap - q.length) := by
  induction lines with
  | nil => intro q; simp
  | cons l ls ih =>
    intro q
    by_cases h : q.length < outputChanCap
    · have hcap : outputChanCap - q.length = (outputChanCap - (q.length + 1)) + 1 := by omega
      simp only [List.foldl_cons, trySend, if_pos h, ih (q ++ [l])]
      rw [hcap]
      simp [List.take_succ_cons, List.append_assoc]
    · have hcap : outputChanCap - q.length = 0 := by omega
      simp only [List.foldl_cons, trySend, if_neg h, ih q]
      rw [hcap]
      simp

/-- C1 (amended): pushing any number of lines through the undrained output
pipeline never blocks the reader loop (`trySend` is total: a full channel
skips the line instead of waiting), and the channel afterwards holds exactly
the earliest at-most-1000 lines -- the newest lines beyond capacity are the
ones dropped. -/
theorem readOutput_keeps_earliest (lines : List String) :
    readOutput lines = lines.take outputChanCap ∧
    (readOutput lines).length ≤ outputChanCap := by
  have h : readOutput lines = lines.take outputChanCap := by
    unfold readOutput
    rw [foldl_trySend]
    simp
  refine ⟨h, ?_⟩
  rw [h, List.length_take]
  exact min_le_left _ _

/-- C1 counterexample: after sending 1001 lines (1000 copies of "a" then one
"b") without draining, the channel does not hold the most recent 1000 lines:
the final line "b" was dropped and the earliest 1000 lines were kept. -/
theorem readOutput_most_recent_cex :
    readOutput (List.replicate 1000 "a" ++ ["b"]) ≠
      (List.replicate 1000 "a" ++ ["b"]).drop 1 ∧
    "b" ∉ readOutput (List.replicate 1000 "a" ++ ["b"]) := by
  have hlen : outputChanCap = (List.replicate 1000 "a").length := by
    rw [List.length_replicate]
    rfl
  have h : readOutput (List.replicate 1000 "a" ++ ["b"]) = List.replicate 1000 "a" := by
    unfold readOutput
    rw [foldl_trySend]
    simp only [List.nil_append, List.length_nil, Nat.sub_zero]
    rw [hlen, List.take_left]
  have hb : "b" ∉ List.replicate 1000 "a" := by
    intro hmem
    exact absurd (List.mem_replicate.mp hmem).2 (by decide)
  refine ⟨?_, by rw [h]; exact hb⟩
  rw [h]
  intro heq
  apply hb
  rw [heq, show (1000 : Nat) = 999 + 1 from rfl, List.replicate_succ]
  rw [List.cons_append, List.drop_one, List.tail_cons]
  exact List.mem_append_right _ (List.mem_singleton.mpr rfl)

/-- C2 counterexample: the child exits cleanly (nil error from `Wait`) while
the status is Running -- the exit-monitor stores Stopped, not Crashed, and
emits no event at all. -/
theorem monitorProcess_clean_exit_cex :
    (monitorProcess .StatusRunning none true .StatusStopped).finalStatus ≠
      .StatusCrashed ∧
    (monitorProcess .StatusRunning none true .StatusStopped).finalStatus =
      .StatusStopped ∧
    (monitorProcess .StatusRunning none true .StatusStopped).events = [] := by
  refine ⟨by decide, by decide, by decide⟩

/-- C2 (amended): for every exit while the status is Running or Starting, if
`cmd.Wait` reports a non-nil error the monitor transitions to Crashed and the
first event it emits is an Error event; if `Wait` reports nil (clean exit)
the monitor transitions to Stopped and emits no event. -/
theorem monitorProcess_crash_amended (s : ServerStatus) (ar : Bool) (d : ServerStatus)
    (hs : s = .StatusRunning ∨ s = .StatusStarting) :
    (∀ e : String,
        (monitorProcess s (some e) ar d).finalStatus = .StatusCrashed ∧
        (monitorProcess s (some e) ar d).events.head? =
          some (.EventError, "Server crashed: " ++ e)) ∧
    (monitorProcess s none ar d).finalStatus = .StatusStopped ∧
    (monitorProcess s none ar d).events = [] := by
  have hns : s ≠ .StatusStopping := by
    rcases hs with h | h <;> subst h <;> intro hc <;> exact ServerStatus.noConfusion hc
  refine ⟨fun e => ⟨?_, ?_⟩, ?_, ?_⟩ <;> simp [monitorProcess, hns]

/-- C2 witness: a crash (non-nil exit error) observed while Running is stored
as Crashed. -/
theorem monitorProcess_crash_amended_witness :
    (ServerStatus.StatusRunning = ServerStatus.StatusRunning ∨
      ServerStatus.StatusRunning = ServerStatus.StatusStarting) ∧
    (monitorProcess .StatusRunning (some "exit status 1") true .StatusStopped).finalStatus =
      .StatusCrashed :=
  ⟨Or.inl rfl,
    ((monitorProcess_crash_amended .StatusRunning true .StatusStopped (Or.inl rfl)).1
      "exit status 1").1⟩

/-- C3: with auto-restart enabled and a crash (non-nil exit error while
Running/Starting), the monitor sleeps the fixed 5 seconds and invokes exactly
one restart attempt if and only if the status is still Crashed when the delay
elapses; in particular a manual Stop that moved the status away from Crashed
during the window suppresses the restart. -/
theorem monitorProcess_restart_guard (s : ServerStatus) (e : String) (d : ServerStatus)
    (hs : s = .StatusRunning ∨ s = .StatusStarting) :
    ((monitorProcess s (some e) true d).restartInvoked = true ↔ d = .StatusCrashed) ∧
    (monitorProcess s (some e) true d).sleepSeconds = 5 ∧
    (d ≠ .StatusCrashed → (monitorProcess s (some e) true d).restartInvoked = false) := by
  have hns : s ≠ .StatusStopping := by
    rcases hs with h | h <;> subst h <;> intro hc <;> exact ServerStatus.noConfusion hc
  refine ⟨?_, ?_, ?_⟩ <;> simp [monitorProcess, hns]

/-- C3 witness: a crash while Running followed by a manual Stop (status
Stopped at the end of the delay) yields no restart. -/
theorem monitorProcess_restart_guard_witness :
    (ServerStatus.StatusRunning = ServerStatus.StatusRunning ∨
      ServerStatus.StatusRunning = ServerStatus.StatusStarting) ∧
    (monitorProcess .StatusRunning (some "exit status 1") true .StatusStopped).restartInvoked
      = false :=
  ⟨Or.inl rfl,
    (monitorProcess_restart_guard .StatusRunning "exit status 1" .StatusStopped
      (Or.inl rfl)).2.2 (by intro hc; exact ServerStatus.noConfusion hc)⟩

/-- C6: `Stop` from a status that is neither Running nor Starting is a pure
no-op returning success (no status change, no commands, no events); from
Running or Starting it stores Stopping, writes `save-all` then (2 seconds
later) `stop` to the child's stdin when the pipe is healthy, bounds the wait
for exit by 30 seconds, and on every path stores Stopped and returns nil. -/
theorem Stop_contract (status : ServerStatus) (stdinAttached writeOk exitsWithinGrace : Bool) :
    (status ≠ .StatusRunning → status ≠ .StatusStarting →
      Stop status stdinAttached writeOk exitsWithinGrace =
        { statusTrace := [], finalStatus := status, commandsWritten := []
          settleSeconds := 0, graceSeconds := 0, killed := false, error := none
          events := [] }) ∧
    ((status = .StatusRunning ∨ status = .StatusStarting) →
      (Stop status stdinAttached writeOk exitsWithinGrace).statusTrace =
          [.StatusStopping, .StatusStopped] ∧
      (Stop status stdinAttached writeOk exitsWithinGrace).finalStatus = .StatusStopped ∧
      (Stop status stdinAttached writeOk exitsWithinGrace).error = none ∧
      (stdinAttached = true → writeOk = true →
        (Stop status stdinAttached writeOk exitsWithinGrace).commandsWritten =
          ["save-all", "stop"]) ∧
      (Stop status stdinAttached writeOk exitsWithinGrace).settleSeconds = 2 ∧
      (Stop status stdinAttached writeOk exitsWithinGrace).graceSeconds = 30) := by
  cases status <;> cases stdinAttached <;> cases writeOk <;> cases exitsWithinGrace <;> decide

/-- C6 witness: a concrete graceful stop from Running, and a no-op stop from
Stopped. -/
theorem Stop_contract_witness :
    (ServerStatus.StatusRunning = ServerStatus.StatusRunning ∨
      ServerStatus.StatusRunning = ServerStatus.StatusStarting) ∧
    (Stop .StatusRunning true true true).statusTrace =
      [ServerStatus.StatusStopping, ServerStatus.StatusStopped] ∧
    (Stop .StatusRunning true true true).error = none :=
  ⟨Or.inl rfl,
    ((Stop_contract .StatusRunning true true true).2 (Or.inl rfl)).1,
    ((Stop_contract .StatusRunning true true true).2 (Or.inl rfl)).2.2.1⟩

/-- C7: `SendCommand` with no stdin pipe attached fails with the
"server not running" error and writes nothing; a successful send writes
exactly one line and appends a Command-category event unless the command is
exactly the metrics poll `forge tps`, which is suppressed. -/
theorem SendCommand_contract (stdinAttached writeOk : Bool) (command : String) :
    (stdinAttached = false →
      SendCommand stdinAttached writeOk command =
        { written := [], event := none, error := some "server not running" }) ∧
    (stdinAttached = true → writeOk = true →
      (SendCommand stdinAttached writeOk command).error = none ∧
      (SendCommand stdinAttached writeOk command).written = [command] ∧
      (SendCommand stdinAttached writeOk command).event =
        (if command = "forge tps" then none
         else some (.EventCommand, "Executed: " ++ command))) := by
  cases stdinAttached <;> cases writeOk <;> simp [SendCommand]

/-- C7 witness: detached stdin yields the "not running" error; a successful
`forge tps` send appends no event. -/
theorem SendCommand_contract_witness :
    (SendCommand false true "list").error = some "server not running" ∧
    (SendCommand true true "forge tps").event = none := by
  constructor
  · exact congrArg SendOutcome.error ((SendCommand_contract false true "list").1 rfl)
  · have h := ((SendCommand_contract true true "forge tps").2 rfl rfl).2.2
    simpa using h

/-- C10: `Restart` increments the cumulative restart counter exactly once,
before invoking `Stop` and `Start`, for every combination of inner `Stop` /
`Start` outcomes -- including the paths on which `Restart` returns an
error. -/
theorem Restart_increments (st : ServerStats) (now : Nat)
    (stopResult startResult : Option String) :
    (Restart st now stopResult startResult).1.Restarts = st.Restarts + 1 := by
  cases stopResult <;> simp [Restart, addEvent, updateStatus]

/-- C5: classifying a join line for a name already present in the registry
leaves the player list and the derived count unchanged (so the registry keeps
at most one entry per name), but still appends a PlayerJoin-category event
exactly as a fresh join would: event emission and registry mutation are
independent. -/
theorem parseOutput_join_idempotent (s : ServerStats) (now : Nat) (line name : String)
    (hdone : matchDone line.data = false)
    (hjoin : matchJoin line.data = some name)
    (hmem : s.Players.any (fun p => p.Name = name) = true) :
    (parseOutput s now line).Players = s.Players ∧
    (parseOutput s now line).PlayerCount = s.PlayerCount ∧
    (parseOutput s now line).RecentEvents =
      (addEvent s now .EventPlayerJoin (name ++ " joined the game")).RecentEvents := by
  simp only [parseOutput, hdone, hjoin]
  simp [addPlayer, hmem, addEvent]

/-- C5 witness: a second join line for "Steve" leaves the one-entry registry
unchanged but still produces the PlayerJoin effect. -/
theorem parseOutput_join_idempotent_witness :
    (matchDone "[Server thread/INFO]: Steve joined the game".data = false ∧
     matchJoin "[Server thread/INFO]: Steve joined the game".data = some "Steve" ∧
     steveState.Players.any (fun p => p.Name = "Steve") = true) ∧
    (parseOutput steveState 7 "[Server thread/INFO]: Steve joined the game").Players =
      steveState.Players :=
  ⟨⟨by decide, by decide, by decide⟩,
    (parseOutput_join_idempotent steveState 7
      "[Server thread/INFO]: Steve joined the game" "Steve"
      (by decide) (by decide) (by decide)).1⟩

/-- C9 (amended): classifying a population-report line stores the two
captured numbers as converted by `strconv.Atoi` with its error discarded --
the value itself within the signed 64-bit range, clamped to 2^63-1 beyond
it -- into `PlayerCount` / `MaxPlayers` and changes nothing else; a snapshot
taken immediately afterwards reports those counts independent of registry
contents. -/
theorem parseOutput_population (s : ServerStats) (now : Nat) (line : String)
    (d1 d2 : List Char)
    (hdone : matchDone line.data = false)
    (hjoin : matchJoin line.data = none)
    (hleave : matchLeave line.data = none)
    (hlist : matchPlayerList line.data = some (d1, d2)) :
    parseOutput s now line =
      { s with PlayerCount := atoiDigits d1, MaxPlayers := atoiDigits d2 } ∧
    ∀ now2 : Nat,
      (GetStats (parseOutput s now line) now2).PlayerCount = atoiDigits d1 ∧
      (GetStats (parseOutput s now line) now2).MaxPlayers = atoiDigits d2 ∧
      (GetStats (parseOutput s now line) now2).Players = s.Players := by
  have h : parseOutput s now line =
      { s with PlayerCount := atoiDigits d1, MaxPlayers := atoiDigits d2 } := by
    simp only [parseOutput, hdone, hjoin, hleave, hlist]
    simp
  refine ⟨h, fun now2 => ?_⟩
  rw [h]
  unfold GetStats
  split <;> simp

/-- C9 counterexample: a population-report line whose count exceeds the
signed 64-bit range is not stored as the number X on the line; the discarded
`strconv.Atoi` range error makes the code store the clamped maximum 2^63-1
instead. -/
theorem parseOutput_population_cex :
    (parseOutput New 0
        "There are 9223372036854775808 of a max of 20 players online").PlayerCount ≠
      9223372036854775808 ∧
    (parseOutput New 0
        "There are 9223372036854775808 of a max of 20 players online").PlayerCount =
      9223372036854775807 ∧
    (parseOutput New 0
        "There are 9223372036854775808 of a max of 20 players online").MaxPlayers = 20 := by
  refine ⟨by decide, by decide, by decide⟩

/-- C9 witness: `There are 3 of a max of 20 players online` against a
nonempty registry sets the counts to 3/20 and leaves the player list
untouched. -/
theorem parseOutput_population_witness :
    matchPlayerList "There are 3 of a max of 20 players online".data =
      some ("3".data, "20".data) ∧
    (parseOutput steveState 0 "There are 3 of a max of 20 players online").PlayerCount = 3 ∧
    (parseOutput steveState 0 "There are 3 of a max of 20 players online").Players =
      steveState.Players := by
  have h := (parseOutput_population steveState 0
    "There are 3 of a max of 20 players online" "3".data "20".data
    (by decide) (by decide) (by decide) (by decide)).1
  refine ⟨by decide, ?_, ?_⟩
  · rw [h]; decide
  · rw [h]

/-- Digit characters evaluate to their value offset by 48. -/
theorem natDigitChar_toNat (m : Nat) (h : m < 10) : (natDigitChar m).toNat = 48 + m := by
  interval_cases m <;> decide

/-- Digit characters satisfy `Char.isDigit`. -/
theorem natDigitChar_isDigit (m : Nat) (h : m < 10) : (natDigitChar m).isDigit = true := by
  interval_cases m <;> decide

/-- Digit characters are not whitespace. -/
theorem natDigitChar_notSpace (m : Nat) (h : m < 10) :
    isSpaceGo (natDigitChar m) = false := by
  interval_cases m <;> decide

/-- Digit characters are unchanged by uppercasing. -/
theorem upChar_digit (m : Nat) (h : m < 10) : upChar (natDigitChar m) = natDigitChar m := by
  interval_cases m <;> decide

/-- Digit characters are none of the recognized size suffixes. -/
theorem natDigitChar_ne_suffix (m : Nat) (h : m < 10) :
    natDigitChar m ≠ 'G' ∧ natDigitChar m ≠ 'M' ∧ natDigitChar m ≠ 'K' := by
  interval_cases m <;> exact ⟨by decide, by decide, by decide⟩

/-- The fuel of `natDecimalAux` is irrelevant once it exceeds the number. -/
theorem natDecimalAux_fuel (f1 : Nat) :
    ∀ f2 n, n < f1 → n < f2 → natDecimalAux f1 n = natDecimalAux f2 n := by
  induction f1 with
  | zero => intro f2 n h1 _; omega
  | succ f ih =>
    intro f2 n h1 h2
    cases f2 with
    | zero => omega
    | succ g =>
      show natDecimalAux (f + 1) n = natDecimalAux (g + 1) n
      unfold natDecimalAux
      by_cases h : n < 10
      · rw [if_pos h, if_pos h]
      · have hd : n / 10 < n := Nat.div_lt_self (by omega) (by omega)
        rw [if_neg h, if_neg h, ih g (n / 10) (by omega) (by omega)]

/-- Unfolding equation of the decimal rendering. -/
theorem natDecimalList_eq (n : Nat) :
    natDecimalList n =
      if n < 10 then [natDigitChar n]
      else natDecimalList (n / 10) ++ [natDigitChar (n % 10)] := by
  show natDecimalAux (n + 1) n = _
  unfold natDecimalAux
  by_cases h : n < 10
  · rw [if_pos h, if_pos h]
  · have hd : n / 10 < n := Nat.div_lt_self (by omega) (by omega)
    rw [if_neg h, if_neg h,
      natDecimalAux_fuel n (n / 10 + 1) (n / 10) (by omega) (by omega)]
    rfl

/-- Every character of a decimal rendering is a digit character. -/
theorem natDecimalList_digits (n : Nat) :
    ∀ c ∈ natDecimalList n, ∃ m, m < 10 ∧ c = natDigitChar m := by
  induction n using Nat.strong_induction_on with
  | _ n ih =>
    intro c hc
    rw [natDecimalList_eq] at hc
    by_cases h : n < 10
    · rw [if_pos h, List.mem_singleton] at hc
      exact ⟨n, h, hc⟩
    · rw [if_neg h, List.mem_append] at hc
      rcases hc with hc | hc
      · exact ih (n / 10) (Nat.div_lt_self (by omega) (by omega)) c hc
      · rw [List.mem_singleton] at hc
        exact ⟨n % 10, Nat.mod_lt _ (by omega), hc⟩

/-- The decimal rendering evaluates back to its value. -/
theorem digitsToNat_natDecimalList (n : Nat) : digitsToNat (natDecimalList n) = n := by
  induction n using Nat.strong_induction_on with
  | _ n ih =>
    rw [natDecimalList_eq]
    by_cases h : n < 10
    · rw [if_pos h]
      simp only [digitsToNat, List.foldl_cons, List.foldl_nil]
      rw [natDigitChar_toNat n h]
      omega
    · rw [if_neg h]
      unfold digitsToNat
      rw [List.foldl_append]
      have hrec := ih (n / 10) (Nat.div_lt_self (by omega) (by omega))
      unfold digitsToNat at hrec
      rw [hrec, List.foldl_cons, List.foldl_nil,
        natDigitChar_toNat (n % 10) (Nat.mod_lt _ (by omega))]
      omega

/-- Decimal renderings are injective. -/
theorem natDecimalList_inj {a b : Nat} (h : natDecimalList a = natDecimalList b) :
    a = b := by
  have ha := digitsToNat_natDecimalList a
  rw [h, digitsToNat_natDecimalList b] at ha
  omega

/-- A decimal rendering ends in a digit character. -/
theorem natDecimalList_concat (n : Nat) :
    ∃ ys m, m < 10 ∧ natDecimalList n = ys ++ [natDigitChar m] := by
  rw [natDecimalList_eq]
  by_cases h : n < 10
  · rw [if_pos h]
    exact ⟨[], n, h, rfl⟩
  · rw [if_neg h]
    exact ⟨natDecimalList (n / 10), n % 10, Nat.mod_lt _ (by omega), rfl⟩

/-- A literal matches any string it starts. -/
theorem litMatch_append (p r : List Char) : litMatch p (p ++ r) = some r := by
  induction p with
  | nil => rfl
  | cons c cs ih => simp [litMatch, ih]

/-- A single-character suffix test succeeds on a list ending in it. -/
theorem endsWithList_concat (c : Char) (xs : List Char) :
    endsWithList [c] (xs ++ [c]) = true := by
  unfold endsWithList
  rw [List.reverse_append]
  simp [litMatch]

/-- A single-character suffix test fails when the last character differs. -/
theorem endsWithList_concat_ne (c d : Char) (xs : List Char) (h : d ≠ c) :
    endsWithList [c] (xs ++ [d]) = false := by
  unfold endsWithList
  rw [List.reverse_append]
  simp [litMatch, Ne.symm h]

/-- `goTrimSpace` is the identity on whitespace-free strings. -/
theorem goTrimSpace_id (s : List Char) (h : ∀ c ∈ s, isSpaceGo c = false) :
    goTrimSpace s = s := by
  have key : ∀ t : List Char, (∀ c ∈ t, isSpaceGo c = false) →
      t.dropWhile isSpaceGo = t := by
    intro t ht
    cases t with
    | nil => rfl
    | cons c cs =>
      apply List.dropWhile_cons_of_neg
      simp [ht c (List.mem_cons_self c cs)]
  unfold goTrimSpace
  rw [key s h, key s.reverse (fun c hc => h c (List.mem_reverse.mp hc)),
    List.reverse_reverse]

/-- Mapping a pointwise-identity function is the identity. -/
theorem map_id_of_forall (f : Char → Char) (l : List Char)
    (h : ∀ c ∈ l, f c = c) : l.map f = l := by
  induction l with
  | nil => rfl
  | cons c cs ih =>
    rw [List.map_cons, h c (List.mem_cons_self c cs),
      ih (fun x hx => h x (List.mem_cons_of_mem c hx))]

/-- The trim-and-uppercase pipeline leaves `<digits><suffix>` inputs intact
except for uppercasing the suffix. -/
theorem memPipeline (n : Nat) (suf : List Char)
    (hsp : ∀ c ∈ suf, isSpaceGo c = false) :
    goToUpper (goTrimSpace (String.mk (natDecimalList n ++ suf)).data) =
      natDecimalList n ++ suf.map upChar := by
  have hall : ∀ c ∈ natDecimalList n ++ suf, isSpaceGo c = false := by
    intro c hc
    rw [List.mem_append] at hc
    rcases hc with hc | hc
    · obtain ⟨m, hm, rfl⟩ := natDecimalList_digits n c hc
      exact natDigitChar_notSpace m hm
    · exact hsp c hc
  show goToUpper (goTrimSpace (natDecimalList n ++ suf)) = _
  rw [goTrimSpace_id _ hall]
  unfold goToUpper
  rw [List.map_append,
    map_id_of_forall upChar (natDecimalList n) (fun c hc => by
      obtain ⟨m, hm, rfl⟩ := natDecimalList_digits n c hc
      exact upChar_digit m hm)]

/-- `memSuffixSplit` on digits followed by a recognized uppercase suffix. -/
theorem memSuffixSplit_suffix (n : Nat) (c : Char) (mult : Nat)
    (hc : (c = 'G' ∧ mult = 1024 * 1024 * 1024) ∨ (c = 'M' ∧ mult = 1024 * 1024) ∨
      (c = 'K' ∧ mult = 1024)) :
    memSuffixSplit (natDecimalList n ++ [c]) = (natDecimalList n, mult) := by
  unfold memSuffixSplit
  rcases hc with ⟨rfl, rfl⟩ | ⟨rfl, rfl⟩ | ⟨rfl, rfl⟩
  · rw [endsWithList_concat]
    simp [List.dropLast_concat]
  · rw [endsWithList_concat_ne 'G' 'M' _ (by decide), endsWithList_concat]
    simp [List.dropLast_concat]
  · rw [endsWithList_concat_ne 'G' 'K' _ (by decide),
      endsWithList_concat_ne 'M' 'K' _ (by decide), endsWithList_concat]
    simp [List.dropLast_concat]

/-- `memSuffixSplit` on bare digits: no suffix stripped, multiplier 1. -/
theorem memSuffixSplit_digits (n : Nat) :
    memSuffixSplit (natDecimalList n) = (natDecimalList n, 1) := by
  obtain ⟨ys, m, hm, heq⟩ := natDecimalList_concat n
  obtain ⟨hG, hM, hK⟩ := natDigitChar_ne_suffix m hm
  unfold memSuffixSplit
  rw [heq, endsWithList_concat_ne 'G' _ _ hG, endsWithList_concat_ne 'M' _ _ hM,
    endsWithList_concat_ne 'K' _ _ hK]
  simp

/-- The integer parser on a decimal rendering: the value clamped to
`maxUint64`. -/
theorem goParseUint64_natDecimalList (n : Nat) :
    goParseUint64 (natDecimalList n) = min n maxUint64 := by
  have hne : (natDecimalList n).isEmpty = false := by
    obtain ⟨ys, m, hm, heq⟩ := natDecimalList_concat n
    rw [heq]
    simp
  have hdig : (natDecimalList n).all Char.isDigit = true := by
    rw [List.all_eq_true]
    intro c hc
    obtain ⟨m, hm, rfl⟩ := natDecimalList_digits n c hc
    exact natDigitChar_isDigit m hm
  unfold goParseUint64
  rw [hne, hdig, digitsToNat_natDecimalList]
  simp

/-- The integer parser yields zero on empty or non-digit input. -/
theorem goParseUint64_invalid (s : List Char)
    (h : s = [] ∨ s.all Char.isDigit = false) : goParseUint64 s = 0 := by
  unfold goParseUint64
  rcases h with rfl | h
  · rfl
  · cases he : s.isEmpty
    · simp [he, h]
    · simp [he]

/-- C8 counterexample: `parseMemoryString "18446744073709551616"` -- a
numeric part one beyond the `uint64` range, hence unparsable by
`strconv.ParseUint` -- returns 18446744073709551615, not zero: the discarded
range error leaves Go's clamped maximum in the value. -/
theorem parseMemoryString_cex :
    parseMemoryString "18446744073709551616" = 18446744073709551615 ∧
    (18446744073709551615 : Nat) ≠ 0 := by
  refine ⟨by decide, by decide⟩

/-- C8 (amended): the maximum-memory parser interprets a decimal number with
an optional case-insensitive K/M/G suffix as a byte count, multiplying by
1024, 1024^2 or 1024^3 with the `uint64` product reduced modulo `2 ^ 64`; a
numeric part beyond the `uint64` range is clamped to `2 ^ 64 - 1` (Go's
`ParseUint` returns that maximum together with a range error the code
discards), while a numeric part that is empty or syntactically invalid
(containing a non-digit) yields zero. -/
theorem parseMemoryString_amended :
    (∀ (n : Nat) (suf : List Char) (mult : Nat),
        ((suf = [] ∧ mult = 1) ∨
         (suf = ['K'] ∧ mult = 1024) ∨ (suf = ['k'] ∧ mult = 1024) ∨
         (suf = ['M'] ∧ mult = 1024 * 1024) ∨ (suf = ['m'] ∧ mult = 1024 * 1024) ∨
         (suf = ['G'] ∧ mult = 1024 * 1024 * 1024) ∨
         (suf = ['g'] ∧ mult = 1024 * 1024 * 1024)) →
        parseMemoryString (String.mk (natDecimalList n ++ suf)) =
          min n maxUint64 * mult % 2 ^ 64) ∧
    (∀ mem : String,
        memNumericPart mem = [] ∨ (memNumericPart mem).all Char.isDigit = false →
        parseMemoryString mem = 0) := by
  constructor
  · intro n suf mult hsuf
    unfold parseMemoryString
    rcases hsuf with ⟨rfl, rfl⟩ | ⟨rfl, rfl⟩ | ⟨rfl, rfl⟩ | ⟨rfl, rfl⟩ | ⟨rfl, rfl⟩ |
      ⟨rfl, rfl⟩ | ⟨rfl, rfl⟩
    · rw [memPipeline n [] (by decide),
        show (([] : List Char).map upChar) = [] from rfl, List.append_nil,
        memSuffixSplit_digits n]
      simp [goParseUint64_natDecimalList]
    · rw [memPipeline n ['K'] (by decide),
        show ((['K'] : List Char).map upChar) = ['K'] from by decide,
        memSuffixSplit_suffix n 'K' 1024 (Or.inr (Or.inr ⟨rfl, rfl⟩))]
      simp [goParseUint64_natDecimalList]
    · rw [memPipeline n ['k'] (by decide),
        show ((['k'] : List Char).map upChar) = ['K'] from by decide,
        memSuffixSplit_suffix n 'K' 1024 (Or.inr (Or.inr ⟨rfl, rfl⟩))]
      simp [goParseUint64_natDecimalList]
    · rw [memPipeline n ['M'] (by decide),
        show ((['M'] : List Char).map upChar) = ['M'] from by decide,
        memSuffixSplit_suffix n 'M' (1024 * 1024) (Or.inr (Or.inl ⟨rfl, rfl⟩))]
      simp [goParseUint64_natDecimalList]
    · rw [memPipeline n ['m'] (by decide),
        show ((['m'] : List Char).map upChar) = ['M'] from by decide,
        memSuffixSplit_suffix n 'M' (1024 * 1024) (Or.inr (Or.inl ⟨rfl, rfl⟩))]
      simp [goParseUint64_natDecimalList]
    · rw [memPipeline n ['G'] (by decide),
        show ((['G'] : List Char).map upChar) = ['G'] from by decide,
        memSuffixSplit_suffix n 'G' (1024 * 1024 * 1024) (Or.inl ⟨rfl, rfl⟩)]
      simp [goParseUint64_natDecimalList]
    · rw [memPipeline n ['g'] (by decide),
        show ((['g'] : List Char).map upChar) = ['G'] from by decide,
        memSuffixSplit_suffix n 'G' (1024 * 1024 * 1024) (Or.inl ⟨rfl, rfl⟩)]
      simp [goParseUint64_natDecimalList]
  · intro mem hbad
    unfold parseMemoryString
    unfold memNumericPart at hbad
    rw [goParseUint64_invalid _ hbad]
    simp

/-- C8 witness: `"2G"` parses to 2 GiB. -/
theorem parseMemoryString_amended_witness :
    parseMemoryString "2G" = 2147483648 := by
  have h := parseMemoryString_amended.1 2 ['G'] (1024 * 1024 * 1024)
    (Or.inr (Or.inr (Or.inr (Or.inr (Or.inr (Or.inl ⟨rfl, rfl⟩))))))
  have he : String.mk (natDecimalList 2 ++ ['G']) = "2G" := by decide
  rw [he] at h
  rw [h]
  decide

end Server

namespace Backup

open Server

/-- Every generated archive name passes the `ListBackups` name filter. -/
theorem backupName_filter (t : Nat) :
    startsWithList "backup_".data (backupName t) = true ∧
    endsWithList ".zip".data (backupName t) = true := by
  constructor
  · unfold startsWithList backupName
    rw [litMatch_append]
    rfl
  · unfold endsWithList backupName
    rw [List.reverse_append, List.reverse_append, List.append_assoc, litMatch_append]
    rfl

/-- Generated archive names are injective in the timestamp. -/
theorem backupName_inj {a b : Nat} (h : backupName a = backupName b) : a = b := by
  unfold backupName at h
  have h1 := List.append_cancel_left h
  have h2 := List.append_cancel_right h1
  exact natDecimalList_inj h2

/-- C4: with two retained backups configured, three successful `CreateBackup`
runs at increasing timestamps t1 < t2 < t3 leave exactly the archives of t2
and t3 in the catalog: each creation triggers retention cleanup, which lists
all archives, sorts them newest-first by creation time and deletes every
entry beyond the configured maximum. -/
theorem CreateBackup_retention (t1 t2 t3 : Nat) (h12 : t1 < t2) (h23 : t2 < t3) :
    ListBackups (CreateBackup 2 t3 (CreateBackup 2 t2 (CreateBackup 2 t1 []))) =
      [{ Name := backupName t2, CreatedAt := t2 },
       { Name := backupName t3, CreatedAt := t3 }] := by
  obtain ⟨hpre1, hsuf1⟩ := backupName_filter t1
  obtain ⟨hpre2, hsuf2⟩ := backupName_filter t2
  obtain ⟨hpre3, hsuf3⟩ := backupName_filter t3
  have hn21 : ¬ t2 < t1 := by omega
  have hn31 : ¬ t3 < t1 := by omega
  have hn32 : ¬ t3 < t2 := by omega
  have hne12 : backupName t1 ≠ backupName t2 := fun hc => by
    have := backupName_inj hc
    omega
  have hne13 : backupName t1 ≠ backupName t3 := fun hc => by
    have := backupName_inj hc
    omega
  simp [CreateBackup, cleanupOldBackups, ListBackups, sortByNewest, insertByNewest,
    hpre1, hsuf1, hpre2, hsuf2, hpre3, hsuf3, hn21, hn31, hn32, hne12, hne13]

/-- C4 witness: timestamps 1 < 2 < 3 leave exactly the archives of 2 and
3. -/
theorem CreateBackup_retention_witness :
    ((1 : Nat) < 2 ∧ (2 : Nat) < 3) ∧
    ListBackups (CreateBackup 2 3 (CreateBackup 2 2 (CreateBackup 2 1 []))) =
      [{ Name := backupName 2, CreatedAt := 2 },
       { Name := backupName 3, CreatedAt := 3 }] :=
  ⟨⟨by decide, by decide⟩, CreateBackup_retention 1 2 3 (by decide) (by decide)⟩

end Backup
